import Mathlib

/-!
Shallow embedding of the retrieval/generation core of the AI-Tutor-Agent
repository: the chunker and ingestion helpers of `backend/server.js`, the
fallback embedding / chat / quiz generation of the AI service module, and
the in-memory `VectorStore` (vector search, cosine similarity, document
deletion, stats).  JavaScript numbers that stay integral are modelled as
`Int` (with explicit 32-bit wrapping where the source uses bitwise ops);
vector components are modelled as real numbers.
-/

namespace AITutor

/-- ToInt32 wrapping as performed by JavaScript bitwise operators
(`hash & hash`, `hash << 5`): reduce mod 2^32 into [-2^31, 2^31). -/
def toInt32 (n : Int) : Int :=
  let m := n % 4294967296
  if m ≥ 2147483648 then m - 4294967296 else m

/-- The rolling hash of `fallbackEmbedding`:
`hash = ((hash << 5) - hash) + charCode; hash = hash & hash`. -/
def jsHash (s : String) : Int :=
  s.toList.foldl (fun h c => toInt32 (toInt32 (h * 32) - h + (c.toNat : Int))) 0

/-- ASCII whitespace recognised by JavaScript `trim()` (the repository only
feeds ASCII text through it). -/
def isJsSpace (c : Char) : Bool :=
  c = ' ' || c = '\t' || c = '\n' || c = '\r' || c = '\x0b' || c = '\x0c'

/-- JavaScript `String.prototype.trim`: drop whitespace at both ends. -/
def jsTrim (l : List Char) : List Char :=
  ((l.dropWhile isJsSpace).reverse.dropWhile isJsSpace).reverse

/-- JavaScript `String.prototype.slice(start, end)` with clamping of both
indices into [0, length] (negative indices count from the end). -/
def jsSlice (l : List Char) (a b : Int) : List Char :=
  let len : Int := l.length
  let lo := if a < 0 then max (len + a) 0 else min a len
  let hi := if b < 0 then max (len + b) 0 else min b len
  (l.take hi.toNat).drop lo.toNat

/-- JavaScript `String.prototype.lastIndexOf(char, fromIndex)`: the largest
index `i ≤ fromIndex` holding `c`, or -1; a negative `fromIndex` behaves
like 0, one beyond the end is clamped to the last index. -/
def jsLastIndexOf (l : List Char) (c : Char) (f : Int) : Int :=
  let bound : Int := min (max f 0) ((l.length : Int) - 1)
  (l.foldl (fun p ch =>
    (p.1 + 1, if ch = c ∧ p.1 ≤ bound then p.1 else p.2)) ((0 : Int), (-1 : Int))).2

/-- Substring test on character lists (JavaScript `String.prototype.includes`). -/
def jsIncludesCore (pat : List Char) : List Char → Bool
  | [] => pat.isEmpty
  | c :: rest => pat.isPrefixOf (c :: rest) || jsIncludesCore pat rest

/-- JavaScript `s.includes(pat)`. -/
def jsIncludes (s pat : String) : Bool :=
  jsIncludesCore pat.toList s.toList

/-- ASCII lowercasing as performed by `String.prototype.toLowerCase` on the
ASCII range (the canned patterns the service matches are all ASCII). -/
def jsToLower (c : Char) : Char :=
  if 'A' ≤ c ∧ c ≤ 'Z' then Char.ofNat (c.toNat + 32) else c

/-- `message.toLowerCase().trim()`. -/
def jsLowerTrim (s : String) : String :=
  String.mk (jsTrim (s.toList.map jsToLower))

/-! ### Chunker (`chunkText` in `backend/server.js`)

The source loop
```
while (start < text.length) {
  let end = start + chunkSize;
  if (end < text.length) {
    const lastPeriod = text.lastIndexOf('.', end);
    const lastNewline = text.lastIndexOf('\n', end);
    const breakPoint = Math.max(lastPeriod, lastNewline);
    if (breakPoint > start + chunkSize * 0.5) end = breakPoint + 1;
  }
  const chunk = text.slice(start, end).trim();
  if (chunk.length > 0) chunks.push(chunk);
  start = end - overlap;
}
```
is modelled with an explicit fuel parameter because the source contains no
termination guarantee; `none` means the bounded run did not reach the exit
condition.  The float comparison `breakPoint > start + chunkSize * 0.5` is
exact for integral operands and is rendered as `2*breakPoint > 2*start + chunkSize`. -/

def chunkTextLoop (text : List Char) (chunkSize overlap : Int) :
    Nat → Int → List (List Char) → Option (List (List Char))
  | 0, _, _ => none
  | fuel + 1, start, acc =>
    if start < (text.length : Int) then
      let end0 := start + chunkSize
      let endF :=
        if end0 < (text.length : Int) then
          let lastPeriod := jsLastIndexOf text '.' end0
          let lastNewline := jsLastIndexOf text '\n' end0
          let breakPoint := max lastPeriod lastNewline
          if 2 * breakPoint > 2 * start + chunkSize then breakPoint + 1 else end0
        else end0
      let chunk := jsTrim (jsSlice text start endF)
      let acc2 := if chunk.length > 0 then chunk :: acc else acc
      chunkTextLoop text chunkSize overlap fuel (endF - overlap) acc2
    else
      some acc.reverse

/-- `chunkText(text, chunkSize, overlap)` bounded by `fuel` loop iterations. -/
def chunkText (text : List Char) (chunkSize overlap : Int) (fuel : Nat) :
    Option (List (List Char)) :=
  chunkTextLoop text chunkSize overlap fuel 0 []

/-! ### Fallback quiz generation (`fallbackQuizGeneration` in the AI service) -/

inductive QuestionType
  | mcq
  | short
deriving DecidableEq, Repr

structure Question where
  id : Nat
  type : QuestionType
  question : String
  options : Option (List String)
  answer : String
  explanation : String
deriving DecidableEq, Repr

/-- The four generic placeholder options of a fallback MCQ question. -/
def mcqPlaceholderOptions : List String :=
  ["Option A - First concept", "Option B - Second concept",
   "Option C - Third concept", "Option D - Fourth concept"]

/-- `fallbackQuizGeneration(topic, contexts, numQuestions)`: `Math.ceil(n*0.6)`
MCQ questions with ids 1.. followed by short-answer questions up to id `n`.
For integral `n` the float expression `Math.ceil(n * 0.6)` equals
`⌈3n/5⌉ = (3n+4)/5` (the double product never crosses an integer). -/
def fallbackQuizGeneration (topic : String) (numQuestions : Nat) : List Question :=
  let mcqCount := (3 * numQuestions + 4) / 5
  ((List.range mcqCount).map (fun j =>
    { id := j + 1
      type := QuestionType.mcq
      question := "What is a key concept or important aspect of " ++ topic ++ "?"
      options := some mcqPlaceholderOptions
      answer := "Option A - First concept"
      explanation := "This question tests your understanding of " ++ topic ++
        ". Review the study materials to understand the key concepts better." }))
  ++
  ((List.range (numQuestions - mcqCount)).map (fun j =>
    { id := mcqCount + j + 1
      type := QuestionType.short
      question := "Explain " ++ topic ++
        " in your own words or describe a specific aspect of it."
      options := none
      answer := "An explanation of " ++ topic ++ " would include..."
      explanation := "Review your study materials to provide a comprehensive answer about "
        ++ topic ++ "." }))

/-! ### Fallback chat (`fallbackChatResponse` / `getHelpfulResponse` in the AI service)

`getHelpfulResponse` pattern-matches the (already lowercased and trimmed)
message.  Its final branch is a template literal that reads the identifier
`contexts`, which is not in scope inside this method (it is a parameter of
`fallbackChatResponse` only), so evaluating the default branch throws a
`ReferenceError`.  Fallible evaluation is modelled with `Except`. -/

def sineReply : String :=
  "The sine function is a fundamental trigonometric function:\n\n• **Definition**: sin(θ) = opposite/hypotenuse in a right triangle\n• **Unit Circle**: sin(θ) = y-coordinate on the unit circle\n\n**Key Values**:\n- sin(0°) = 0\n- sin(30°) = 1/2\n- sin(45°) = √2/2\n- sin(60°) = √3/2\n- sin(90°) = 1\n\n**Important Identities**:\n- sin²(θ) + cos²(θ) = 1\n- sin(90° - θ) = cos(θ)\n- sin(-θ) = -sin(θ)\n\nWould you like me to explain any specific application or concept related to sine?"

def arraysReply : String :=
  "**Arrays** are fundamental data structures:\n\n• **Definition**: A collection of elements stored in contiguous memory locations, accessible by index\n\n• **Key Characteristics**:\n  - Fixed or dynamic size\n  - Zero-based indexing (usually)\n  - Random access (O(1))\n\n• **Time Complexities**:\n  - Access: O(1)\n  - Search: O(n)\n  - Insertion: O(n)\n  - Deletion: O(n)\n\n• **Common Operations**:\n  - Traversal\n  - Searching (linear, binary)\n  - Sorting (bubble, merge, quick)\n  - Insertion/Deletion\n\nWould you like to dive deeper into any specific aspect of arrays?"

def greetingReply : String :=
  "Hello! 👋 I\x27m your AI Tutor Agent. I\x27m here to help you learn! 🎓\n\nI can help you with:\n• Understanding concepts from your study materials\n• Answering questions with explanations\n• Generating quizzes and practice problems\n• Providing step-by-step guidance\n\n**To get the best experience:**\n1. Upload your study materials (PDFs)\n2. Ask me questions based on them\n3. I\x27ll provide answers grounded in your materials\n\nWhat would you like to learn today?"

def helpReply : String :=
  "I\x27m your AI Tutor Agent! Here\x27s what I can do:\n\n📚 **Study Assistance**:\n- Answer questions from your uploaded study materials\n- Explain concepts step-by-step\n- Provide examples and analogies\n\n📝 **Quiz Generation**:\n- Create quizzes from your study materials\n- Multiple question types (MCQ, short answer)\n- Auto-grading and feedback\n\n💡 **Learning Support**:\n- Break down complex topics\n- Provide personalized explanations\n- Help you understand difficult concepts\n\n**To get started:**\n1. Upload your PDF study materials\n2. Ask me questions about the content\n3. Generate quizzes to test your knowledge\n\nWhat would you like to try first?"

/-- `getHelpfulResponse(message)`.  The default branch of the source
interpolates the out-of-scope identifier `contexts`, so it raises
`ReferenceError: contexts is not defined` instead of producing the generic
"here is what I would need" reply. -/
def getHelpfulResponse (message : String) : Except String String :=
  if jsIncludes message "sin" && (jsIncludes message "theta" || jsIncludes message "θ") then
    Except.ok sineReply
  else if jsIncludes message "array" || jsIncludes message "dsa" ||
      jsIncludes message "data structure" then
    Except.ok arraysReply
  else if message == "hi" || message == "hello" || message == "hey" then
    Except.ok greetingReply
  else if jsIncludes message "help" || jsIncludes message "what can you do" then
    Except.ok helpReply
  else
    Except.error "ReferenceError: contexts is not defined"

/-- `contexts.map((ctx, i) => "[i+1] ctx").join("\n\n")`. -/
def joinContexts (contexts : List String) : String :=
  String.intercalate "\n\n"
    (contexts.enum.map (fun p => "[" ++ toString (p.1 + 1) ++ "] " ++ p.2))

/-- `fallbackChatResponse(message, contexts)`: lowercase and trim the
message; when passages were supplied, prefix the helpful response by quoting
them; an exception from `getHelpfulResponse` propagates to the caller. -/
def fallbackChatResponse (message : String) (contexts : List String) :
    Except String String :=
  let lowerMessage := jsLowerTrim message
  if contexts.length > 0 then
    match getHelpfulResponse lowerMessage with
    | Except.error e => Except.error e
    | Except.ok r =>
        Except.ok ("Based on your study materials:\n\n" ++ joinContexts contexts
          ++ "\n\n" ++ r)
  else
    getHelpfulResponse lowerMessage

/-! ### Fallback embedding (`fallbackEmbedding` in the AI service)

The 768 components are `Math.sin(hash * (i + 1)) * 0.1` followed by division
of every component by the Euclidean norm.  Components are modelled as real
numbers; the division is the source's `val / norm`, performed with no guard
on `norm`. -/

/-- The 768 raw components before normalization. -/
noncomputable def fallbackRawEmbedding (text : String) : List ℝ :=
  (List.range 768).map
    (fun i : ℕ => Real.sin ((jsHash text : ℝ) * ((i : ℝ) + 1)) * 0.1)

/-- `Math.sqrt(embedding.reduce((sum, val) => sum + val * val, 0))`. -/
noncomputable def fallbackNorm (text : String) : ℝ :=
  Real.sqrt (((fallbackRawEmbedding text).map (fun v => v * v)).sum)

/-- `embedding.map(val => val / norm)` — the divisor is `fallbackNorm text`
whether or not it is zero. -/
noncomputable def fallbackEmbedding (text : String) : List ℝ :=
  (fallbackRawEmbedding text).map (fun v => v / fallbackNorm text)

/-! ### VectorStore (`backend/vectorStore.js`) -/

structure MetadataInfo where
  filename : String
  page : Nat
  totalPages : Nat
deriving DecidableEq, Repr

/-- A stored vector record `{ id, documentId, embedding, text, chunkIndex, metadata }`. -/
structure VectorRecord where
  id : String
  documentId : String
  embedding : List ℝ
  text : String
  chunkIndex : Nat
  metadata : MetadataInfo

/-- A `findSimilar` result: the record with the `embedding` field stripped
and a `similarity` field added. -/
structure SimRecord where
  id : String
  documentId : String
  text : String
  chunkIndex : Nat
  metadata : MetadataInfo
  similarity : ℝ

/-- Document metadata as registered by `addDocument`. -/
structure DocMeta where
  filename : String
  createdAt : String
deriving DecidableEq, Repr

/-- The in-memory store: an ordered list of records plus the document map
(a JavaScript `Map`, i.e. an insertion-ordered association list whose keys
are unique). -/
structure VectorStore where
  vectors : List VectorRecord
  documents : List (String × DocMeta)

structure Stats where
  totalVectors : Nat
  totalDocuments : Nat
deriving DecidableEq, Repr

namespace VectorStore

/-- The cosine value computed by the source loop once the length check has
passed: three accumulators `dotProduct`, `normA`, `normB`, then
`dotProduct / (Math.sqrt(normA) * Math.sqrt(normB))`. -/
noncomputable def cosValue (a b : List ℝ) : ℝ :=
  let acc := (a.zip b).foldl
    (fun (acc : ℝ × ℝ × ℝ) p =>
      (acc.1 + p.1 * p.2, acc.2.1 + p.1 * p.1, acc.2.2 + p.2 * p.2))
    (0, 0, 0)
  acc.1 / (Real.sqrt acc.2.1 * Real.sqrt acc.2.2)

/-- `cosineSimilarity(vecA, vecB)`: throws when the lengths differ. -/
noncomputable def cosineSimilarity (a b : List ℝ) : Except String ℝ :=
  if a.length ≠ b.length then Except.error "Vectors must have the same length"
  else Except.ok (cosValue a b)

/-- `candidates.map(v => ({...v, similarity: cosineSimilarity(q, v.embedding)}))`:
the first thrown error aborts the whole traversal. -/
noncomputable def simList (q : List ℝ) : List VectorRecord →
    Except String (List (VectorRecord × ℝ))
  | [] => Except.ok []
  | v :: vs =>
    match cosineSimilarity q v.embedding with
    | Except.error e => Except.error e
    | Except.ok s =>
      match simList q vs with
      | Except.error e => Except.error e
      | Except.ok rest => Except.ok ((v, s) :: rest)

/-- `similarities.sort((a, b) => b.similarity - a.similarity)`: a stable sort
placing higher similarity first, ties kept in original order (ECMAScript
sort is stable). -/
noncomputable def sortBySimDesc (l : List (VectorRecord × ℝ)) :
    List (VectorRecord × ℝ) :=
  List.insertionSort (fun x y => y.2 ≤ x.2) l

/-- `({ embedding, ...rest }) => rest` plus the similarity field. -/
def stripRecord (v : VectorRecord) (s : ℝ) : SimRecord :=
  { id := v.id, documentId := v.documentId, text := v.text,
    chunkIndex := v.chunkIndex, metadata := v.metadata, similarity := s }

/-- `findSimilar(queryEmbedding, topK, filterDocId)`. -/
noncomputable def findSimilar (store : VectorStore) (q : List ℝ) (topK : Nat)
    (filterDocId : Option String) : Except String (List SimRecord) :=
  let candidates :=
    match filterDocId with
    | some d => store.vectors.filter (fun v => v.documentId == d)
    | none => store.vectors
  match simList q candidates with
  | Except.error e => Except.error e
  | Except.ok sims =>
      Except.ok (((sortBySimDesc sims).take topK).map (fun p => stripRecord p.1 p.2))

/-- `addVectors(vectors)`: append, return the count added. -/
def addVectors (store : VectorStore) (vs : List VectorRecord) :
    VectorStore × Nat :=
  ({ store with vectors := store.vectors ++ vs }, vs.length)

/-- `addDocument(docId, metadata)`: `Map.set` — update in place when the key
exists, otherwise append. -/
def addDocument (store : VectorStore) (docId : String) (meta : DocMeta) :
    VectorStore :=
  { store with documents :=
      if store.documents.any (fun e => e.1 == docId) then
        store.documents.map (fun e => if e.1 == docId then (docId, meta) else e)
      else
        store.documents ++ [(docId, meta)] }

/-- `getDocumentVectors(docId)`. -/
def getDocumentVectors (store : VectorStore) (docId : String) :
    List VectorRecord :=
  store.vectors.filter (fun v => v.documentId == docId)

/-- `deleteDocument(docId)`: keep only records of other documents and remove
the `Map` entry (keys are unique, so this removes at most one entry). -/
def deleteDocument (store : VectorStore) (docId : String) : VectorStore :=
  { vectors := store.vectors.filter (fun v => v.documentId != docId)
    documents := store.documents.filter (fun e => e.1 != docId) }

/-- `getDocument(docId)`. -/
def getDocument (store : VectorStore) (docId : String) : Option DocMeta :=
  (store.documents.find? (fun e => e.1 == docId)).map (fun e => e.2)

/-- `getStats()`. -/
def getStats (store : VectorStore) : Stats :=
  { totalVectors := store.vectors.length
    totalDocuments := store.documents.length }

end VectorStore

/-! ### Spec-side definitions (for refinement statements)

These two follow the words of the specification — "dot(a,b)" and "the
Euclidean norm" — and are compared against the accumulator loop of
`cosineSimilarity`. -/

/-- Dot product as the spec states it. -/
def listDot (a b : List ℝ) : ℝ :=
  ((a.zip b).map (fun p => p.1 * p.2)).sum

/-- Euclidean norm as the spec states it. -/
noncomputable def euclNorm (v : List ℝ) : ℝ :=
  Real.sqrt ((v.map (fun x => x ^ 2)).sum)

/-! ### Concrete fixtures used to instantiate the store theorems -/

def sampleMeta : MetadataInfo :=
  { filename := "notes.pdf", page := 1, totalPages := 3 }

def sampleDoc : DocMeta :=
  { filename := "notes.pdf", createdAt := "2024-01-01T00:00:00.000Z" }

def vecRec1 : VectorRecord :=
  { id := "d1-chunk-0", documentId := "d1", embedding := [1, 0],
    text := "alpha", chunkIndex := 0, metadata := sampleMeta }

def vecRec2 : VectorRecord :=
  { id := "d1-chunk-1", documentId := "d1", embedding := [0, 1],
    text := "beta", chunkIndex := 1, metadata := sampleMeta }

def vecRec3 : VectorRecord :=
  { id := "d2-chunk-0", documentId := "d2", embedding := [1, 1],
    text := "gamma", chunkIndex := 0, metadata := sampleMeta }

/-- A record whose embedding has the wrong dimension. -/
def vecRecBad : VectorRecord :=
  { id := "d2-chunk-0", documentId := "d2", embedding := [1],
    text := "delta", chunkIndex := 0, metadata := sampleMeta }

def sampleStore : VectorStore :=
  { vectors := [vecRec1, vecRec2], documents := [("d1", sampleDoc)] }

def mismatchStore : VectorStore :=
  { vectors := [vecRec1, vecRecBad],
    documents := [("d1", sampleDoc), ("d2", sampleDoc)] }

def twoDocStore : VectorStore :=
  { vectors := [vecRec1, vecRec2, vecRec3],
    documents := [("d1", sampleDoc), ("d2", sampleDoc)] }

/-! ## Helper lemmas -/

theorem cosAccum_foldl (l : List (ℝ × ℝ)) : ∀ x y z : ℝ,
    l.foldl (fun (acc : ℝ × ℝ × ℝ) p =>
      (acc.1 + p.1 * p.2, acc.2.1 + p.1 * p.1, acc.2.2 + p.2 * p.2)) (x, y, z) =
    (x + (l.map (fun p => p.1 * p.2)).sum,
     y + (l.map (fun p => p.1 * p.1)).sum,
     z + (l.map (fun p => p.2 * p.2)).sum) := by
  induction l with
  | nil => intro x y z; simp
  | cons a l ih =>
    intro x y z
    rw [List.foldl_cons, ih]
    simp only [List.map_cons, List.sum_cons]
    refine Prod.ext ?_ (Prod.ext ?_ ?_) <;> dsimp <;> ring

theorem sum_zip_sq_left : ∀ (a b : List ℝ), a.length = b.length →
    ((a.zip b).map fun p => p.1 * p.1).sum = (a.map fun x => x ^ 2).sum := by
  intro a
  induction a with
  | nil => intro b _; simp
  | cons x a ih =>
    intro b hb
    cases b with
    | nil => simp at hb
    | cons y b =>
      simp only [List.zip_cons_cons, List.map_cons, List.sum_cons]
      rw [ih b (by simpa using hb)]
      ring_nf

theorem sum_zip_sq_right : ∀ (a b : List ℝ), a.length = b.length →
    ((a.zip b).map fun p => p.2 * p.2).sum = (b.map fun x => x ^ 2).sum := by
  intro a
  induction a with
  | nil =>
    intro b hb
    cases b with
    | nil => simp
    | cons y b => simp at hb
  | cons x a ih =>
    intro b hb
    cases b with
    | nil => simp at hb
    | cons y b =>
      simp only [List.zip_cons_cons, List.map_cons, List.sum_cons]
      rw [ih b (by simpa using hb)]
      ring_nf

theorem head?_dropWhile_all (p : α → Bool) (l : List α) :
    ((l.dropWhile p).head?.all fun a => !p a) = true := by
  induction l with
  | nil => rfl
  | cons a l ih =>
    by_cases h : p a
    · rw [List.dropWhile_cons]
      simp only [h, if_true]
      exact ih
    · simp [List.dropWhile_cons, h]

theorem getLast?_dropWhile_or (p : α → Bool) (y : List α) :
    (y.dropWhile p).getLast? = none ∨ (y.dropWhile p).getLast? = y.getLast? := by
  induction y with
  | nil => left; rfl
  | cons a ys ih =>
    by_cases h : p a
    · rw [List.dropWhile_cons]
      simp only [h, if_true]
      rcases ih with h1 | h1
      · left; exact h1
      · cases ys with
        | nil => left; simpa using h1
        | cons b l => right; rw [h1, List.getLast?_cons_cons]
    · rw [List.dropWhile_cons]
      simp only [h, if_false]
      right; rfl

theorem jsTrim_getLast?_all (l : List Char) :
    ((jsTrim l).getLast?.all fun ch => !isJsSpace ch) = true := by
  unfold jsTrim
  rw [List.getLast?_reverse]
  exact head?_dropWhile_all _ _

theorem jsTrim_head?_all (l : List Char) :
    ((jsTrim l).head?.all fun ch => !isJsSpace ch) = true := by
  unfold jsTrim
  rw [List.head?_reverse]
  rcases getLast?_dropWhile_or isJsSpace (l.dropWhile isJsSpace).reverse with h | h
  · rw [h]; rfl
  · rw [h, List.getLast?_reverse]
    exact head?_dropWhile_all _ _

/-- Invariant of the chunking loop: every chunk the loop ever pushes is the
trim of a slice and is only pushed when non-empty. -/
theorem chunkTextLoop_inv (text : List Char) (cs ov : Int) :
    ∀ (fuel : Nat) (start : Int) (acc l : List (List Char)),
      chunkTextLoop text cs ov fuel start acc = some l →
      (∀ c ∈ acc, c ≠ [] ∧ ((c.head?.all fun ch => !isJsSpace ch) = true) ∧
        ((c.getLast?.all fun ch => !isJsSpace ch) = true)) →
      ∀ c ∈ l, c ≠ [] ∧ ((c.head?.all fun ch => !isJsSpace ch) = true) ∧
        ((c.getLast?.all fun ch => !isJsSpace ch) = true) := by
  intro fuel
  induction fuel with
  | zero => intro start acc l h; cases h
  | succ n ih =>
    intro start acc l h hacc
    rw [chunkTextLoop] at h
    by_cases hs : start < (text.length : Int)
    · rw [if_pos hs] at h
      refine ih _ _ _ h ?_
      intro c hc
      set endF := if start + cs < (text.length : Int) then
          (if 2 * max (jsLastIndexOf text '.' (start + cs))
              (jsLastIndexOf text '\n' (start + cs)) > 2 * start + cs then
            max (jsLastIndexOf text '.' (start + cs))
              (jsLastIndexOf text '\n' (start + cs)) + 1
          else start + cs)
        else start + cs with hendF
      by_cases hp : (jsTrim (jsSlice text start endF)).length > 0
      · rw [if_pos hp] at hc
        rcases List.mem_cons.mp hc with rfl | hc2
        · refine ⟨?_, jsTrim_head?_all _, jsTrim_getLast?_all _⟩
          intro hnil
          rw [hnil] at hp
          simp at hp
        · exact hacc c hc2
      · rw [if_neg hp] at hc
        exact hacc c hc
    · rw [if_neg hs] at h
      cases h
      intro c hc
      exact hacc c (List.mem_reverse.mp hc)

/-- With `overlap = size`, the loop re-enters with the same `start` forever
on the one-character text "a": `start = (start + size) - overlap = start`. -/
theorem chunkTextLoop_a_stuck :
    ∀ (fuel : Nat) (acc : List (List Char)),
      chunkTextLoop ['a'] 10 10 fuel 0 acc = none := by
  intro fuel
  induction fuel with
  | zero => intro acc; rfl
  | succ n ih => intro acc; exact ih _

theorem foldl_lastIndexOf_snd (c a : Char) (hne : a ≠ c) (bound : Int) :
    ∀ (n : Nat) (i b : Int),
      ((List.replicate n a).foldl (fun p ch =>
        (p.1 + 1, if ch = c ∧ p.1 ≤ bound then p.1 else p.2)) (i, b)).2 = b := by
  intro n
  induction n with
  | zero => intro i b; rfl
  | succ m ih =>
    intro i b
    rw [List.replicate_succ, List.foldl_cons]
    have : (if a = c ∧ i ≤ bound then i else b) = b := by
      rw [if_neg]
      intro h
      exact hne h.1
    rw [this]
    exact ih (i + 1) b

/-- On a text that never contains `c`, `lastIndexOf` returns -1. -/
theorem jsLastIndexOf_replicate (n : Nat) (a c : Char) (hne : a ≠ c) (f : Int) :
    jsLastIndexOf (List.replicate n a) c f = -1 := by
  unfold jsLastIndexOf
  exact foldl_lastIndexOf_snd c a hne _ n 0 (-1)

theorem dropWhile_replicate_of_neg (p : Char → Bool) (a : Char) (h : p a = false) :
    ∀ k, (List.replicate k a).dropWhile p = List.replicate k a := by
  intro k
  cases k with
  | zero => rfl
  | succ m => rw [List.replicate_succ, List.dropWhile_cons, h]; simp

theorem jsTrim_replicate (a : Char) (h : isJsSpace a = false) (k : Nat) :
    jsTrim (List.replicate k a) = List.replicate k a := by
  unfold jsTrim
  rw [dropWhile_replicate_of_neg _ _ h, List.reverse_replicate,
    dropWhile_replicate_of_neg _ _ h, List.reverse_replicate]

theorem jsSlice_replicate_window (n : Nat) (start : Int)
    (h2 : 0 ≤ start) (h1 : start < (n : Int)) :
    jsSlice (List.replicate n 'a') start (start + 1000) =
    List.replicate ((min (start + 1000) (n : Int)).toNat - start.toNat) 'a' := by
  unfold jsSlice
  simp only [List.length_replicate]
  rw [if_neg (by omega : ¬ start < 0), if_neg (by omega : ¬ start + 1000 < 0)]
  rw [List.take_replicate, List.drop_replicate]
  congr 1
  omega

/-- One iteration of the chunking loop on the all-'a' text of length `n`,
window 1000, overlap 200: no sentence boundary is ever found, so the window
end stays `start + 1000` and the loop advances by 800. -/
theorem chunkTextLoop_repl_step (n : Nat) (fuel : Nat) (start : Int)
    (acc : List (List Char)) (h1 : start < (n : Int)) (h2 : 0 ≤ start) :
    chunkTextLoop (List.replicate n 'a') 1000 200 (fuel + 1) start acc =
    chunkTextLoop (List.replicate n 'a') 1000 200 fuel (start + 800)
      (List.replicate ((min (start + 1000) (n : Int)).toNat - start.toNat) 'a'
        :: acc) := by
  have hlt : start < ((List.replicate n 'a').length : Int) := by
    rw [List.length_replicate]; exact h1
  have hdot := jsLastIndexOf_replicate n 'a' '.' (by decide) (start + 1000)
  have hnl := jsLastIndexOf_replicate n 'a' '\n' (by decide) (start + 1000)
  have hk : 0 < (min (start + 1000) (n : Int)).toNat - start.toNat := by omega
  rw [chunkTextLoop, if_pos hlt]
  simp only [List.length_replicate, hdot, hnl, max_self,
    if_neg (by omega : ¬ 2 * (-1 : Int) > 2 * start + 1000),
    ite_self, jsSlice_replicate_window n start h2 h1,
    jsTrim_replicate 'a' (by decide)]
  rw [if_pos hk]
  have harg : start + 1000 - 200 = start + 800 := by omega
  rw [harg]

theorem chunkTextLoop_repl_exit (n : Nat) (fuel : Nat) (start : Int)
    (acc : List (List Char)) (h : ¬ start < (n : Int)) :
    chunkTextLoop (List.replicate n 'a') 1000 200 (fuel + 1) start acc =
    some acc.reverse := by
  rw [chunkTextLoop, if_neg (by rw [List.length_replicate]; exact h)]

theorem jsSlice_of_le (l : List Char) (b : Int) (hb : (l.length : Int) ≤ b) :
    jsSlice l 0 b = l := by
  unfold jsSlice
  have h0 : ¬ ((0 : Int) < 0) := by norm_num
  have hbn : ¬ (b < 0) := by
    have : (0 : Int) ≤ (l.length : Int) := Int.natCast_nonneg _
    omega
  simp only [h0, if_false, hbn]
  rw [min_eq_left (by exact_mod_cast Nat.zero_le _), min_eq_right hb]
  simp

theorem simList_ok_of_len (q : List ℝ) : ∀ vs : List VectorRecord,
    (∀ v ∈ vs, v.embedding.length = q.length) →
    VectorStore.simList q vs =
      Except.ok (vs.map fun v => (v, VectorStore.cosValue q v.embedding)) := by
  intro vs
  induction vs with
  | nil => intro _; rfl
  | cons v vs ih =>
    intro h
    have hcos : VectorStore.cosineSimilarity q v.embedding =
        Except.ok (VectorStore.cosValue q v.embedding) := by
      unfold VectorStore.cosineSimilarity
      rw [if_neg (by have := h v (by simp); omega : ¬ q.length ≠ v.embedding.length)]
    rw [VectorStore.simList, hcos, ih (fun w hw => h w (by simp [hw]))]
    rfl

theorem simList_mem (q : List ℝ) : ∀ (vs : List VectorRecord)
    (sims : List (VectorRecord × ℝ)),
    VectorStore.simList q vs = Except.ok sims → ∀ p ∈ sims, p.1 ∈ vs := by
  intro vs
  induction vs with
  | nil =>
    intro sims h p hp
    cases h
    cases hp
  | cons v vs ih =>
    intro sims h p hp
    rw [VectorStore.simList] at h
    cases hc : VectorStore.cosineSimilarity q v.embedding with
    | error e => rw [hc] at h; simp at h
    | ok s =>
      rw [hc] at h
      cases hrest : VectorStore.simList q vs with
      | error e => rw [hrest] at h; simp at h
      | ok rest =>
        rw [hrest] at h
        simp only [Except.ok.injEq] at h
        subst h
        rcases List.mem_cons.mp hp with rfl | hp2
        · exact List.mem_cons_self _ _
        · exact List.mem_cons_of_mem _ (ih rest hrest p hp2)

theorem simList_error_of_mismatch (q : List ℝ) : ∀ vs : List VectorRecord,
    (∃ v ∈ vs, v.embedding.length ≠ q.length) →
    VectorStore.simList q vs =
      Except.error "Vectors must have the same length" := by
  intro vs
  induction vs with
  | nil => rintro ⟨v, hv, _⟩; cases hv
  | cons w vs ih =>
    rintro ⟨v, hv, hne⟩
    by_cases hw : w.embedding.length = q.length
    · have hcos : VectorStore.cosineSimilarity q w.embedding =
          Except.ok (VectorStore.cosValue q w.embedding) := by
        unfold VectorStore.cosineSimilarity
        rw [if_neg (by omega : ¬ q.length ≠ w.embedding.length)]
      have hv2 : v ∈ vs := by
        rcases List.mem_cons.mp hv with rfl | h2
        · exact absurd hw hne
        · exact h2
      rw [VectorStore.simList, hcos, ih ⟨v, hv2, hne⟩]
    · have hcos : VectorStore.cosineSimilarity q w.embedding =
          Except.error "Vectors must have the same length" := by
        unfold VectorStore.cosineSimilarity
        rw [if_pos (by omega : q.length ≠ w.embedding.length)]
      rw [VectorStore.simList, hcos]

/-- Every record a successful `findSimilar` call returns carries the
`documentId` of some stored record. -/
theorem findSimilar_result_docId (store : VectorStore) (q : List ℝ)
    (topK : Nat) (f : Option String) (rs : List SimRecord)
    (h : VectorStore.findSimilar store q topK f = Except.ok rs) :
    ∀ r ∈ rs, ∃ v ∈ store.vectors, r.documentId = v.documentId := by
  unfold VectorStore.findSimilar at h
  cases f with
  | none =>
    dsimp only at h
    cases hsim : VectorStore.simList q store.vectors with
    | error e => rw [hsim] at h; simp at h
    | ok sims =>
      rw [hsim] at h
      simp only [Except.ok.injEq] at h
      subst h
      intro r hr
      rw [List.mem_map] at hr
      obtain ⟨p, hp, rfl⟩ := hr
      have hp2 : p ∈ VectorStore.sortBySimDesc sims := List.mem_of_mem_take hp
      rw [VectorStore.sortBySimDesc, List.mem_insertionSort] at hp2
      exact ⟨p.1, simList_mem q store.vectors sims hsim p hp2, rfl⟩
  | some d =>
    dsimp only at h
    cases hsim : VectorStore.simList q
        (store.vectors.filter fun v => v.documentId == d) with
    | error e => rw [hsim] at h; simp at h
    | ok sims =>
      rw [hsim] at h
      simp only [Except.ok.injEq] at h
      subst h
      intro r hr
      rw [List.mem_map] at hr
      obtain ⟨p, hp, rfl⟩ := hr
      have hp2 : p ∈ VectorStore.sortBySimDesc sims := List.mem_of_mem_take hp
      rw [VectorStore.sortBySimDesc, List.mem_insertionSort] at hp2
      have hcand := simList_mem q _ sims hsim p hp2
      exact ⟨p.1, List.mem_of_mem_filter hcand, rfl⟩

theorem length_filter_keys_of_mem_nodup (d : String) :
    ∀ l : List (String × DocMeta), d ∈ l.map Prod.fst →
      (l.map Prod.fst).Nodup →
      (l.filter fun e => e.1 != d).length + 1 = l.length := by
  intro l
  induction l with
  | nil => intro h _; cases h
  | cons e l ih =>
    intro hmem hnodup
    rw [List.map_cons, List.nodup_cons] at hnodup
    by_cases he : e.1 = d
    · rw [List.filter_cons_of_neg (by simp [he])]
      have hall : l.filter (fun p => p.1 != d) = l := by
        refine List.filter_eq_self.mpr (fun p hp => ?_)
        have : p.1 ≠ d := by
          intro hpd
          exact hnodup.1 (by rw [he, ← hpd]; exact List.mem_map_of_mem Prod.fst hp)
        simpa using this
      rw [hall, List.length_cons]
    · rw [List.map_cons] at hmem
      rcases List.mem_cons.mp hmem with hd | hd
      · exact absurd hd.symm he
      · rw [List.filter_cons_of_pos (by simpa using he), List.length_cons,
          List.length_cons, ih hd hnodup.2]

theorem find?_filter_keys_ne (d d2 : String) (hne : d2 ≠ d) :
    ∀ l : List (String × DocMeta),
      (l.filter fun e => e.1 != d).find? (fun e => e.1 == d2) =
        l.find? (fun e => e.1 == d2) := by
  intro l
  induction l with
  | nil => rfl
  | cons e l ih =>
    by_cases he : e.1 = d
    · rw [List.filter_cons_of_neg (by simp [he])]
      rw [List.find?_cons_of_neg _ (by simp [he, hne.symm])]
      exact ih
    · rw [List.filter_cons_of_pos (by simpa using he)]
      by_cases he2 : e.1 = d2
      · rw [List.find?_cons_of_pos _ (by simp [he2]),
          List.find?_cons_of_pos _ (by simp [he2])]
      · rw [List.find?_cons_of_neg _ (by simp [he2]),
          List.find?_cons_of_neg _ (by simp [he2])]
        exact ih

/-! ## Claims -/

/-- C1: for every chat message matching none of the canned handlers, the
spec claims the fallback returns the generic response without error.  The
code instead raises `ReferenceError: contexts is not defined`, because the
default branch of `getHelpfulResponse` reads the identifier `contexts`,
which is not in scope in that method — with or without supplied passages.
This contradicts the documented "always return something usable" contract,
so the claim is recorded as a code bug, evaluated here at the failing input
"What is calculus?". -/
theorem fallbackChat_unmatched_message_raises :
    fallbackChatResponse "What is calculus?" [] =
      Except.error "ReferenceError: contexts is not defined" ∧
    fallbackChatResponse "What is calculus?" ["passage one"] =
      Except.error "ReferenceError: contexts is not defined" := by
  exact ⟨rfl, rfl⟩

/-- C3: the spec claims `fallbackEmbedding` guards against a zero Euclidean
norm.  The code has no guard: for the empty string the rolling hash is 0,
all 768 raw components are `sin(0)*0.1 = 0`, the norm is 0, and the final
`map(val => val / norm)` divides by zero (NaN components in JavaScript).
Recorded as a code bug; this theorem evaluates the code at the failing
input `""`. -/
theorem fallbackEmbedding_zero_norm_unguarded :
    jsHash "" = 0 ∧
    fallbackRawEmbedding "" = List.replicate 768 (0 : ℝ) ∧
    fallbackNorm "" = 0 := by
  have h1 : jsHash "" = 0 := rfl
  have h2 : fallbackRawEmbedding "" = List.replicate 768 (0 : ℝ) := by
    rw [List.eq_replicate_iff]
    constructor
    · rw [fallbackRawEmbedding, List.length_map, List.length_range]
    · intro b hb
      rw [fallbackRawEmbedding] at hb
      simp only [List.mem_map, List.mem_range] at hb
      obtain ⟨i, _, hi⟩ := hb
      rw [← hi, h1]
      norm_num
  refine ⟨h1, h2, ?_⟩
  rw [fallbackNorm, h2, List.map_replicate]
  norm_num [List.sum_replicate, Real.sqrt_zero]

/-- C2 (amended): `chunkText` neither rejects nor clamps `overlap ≥ size`;
with `overlap = size` the loop makes no progress and the call never
terminates on the non-empty text "a" (the fuel-indexed model returns `none`
for every fuel bound).  When `0 ≤ overlap` and the text is non-empty, has
non-blank content, and is no longer than `size − overlap`, the call
terminates with exactly one chunk, the trimmed text. -/
theorem chunkText_overlap_amended :
    (∀ fuel : Nat, chunkText ['a'] 10 10 fuel = none) ∧
    (∀ (text : List Char) (cs ov : Int) (fuel : Nat),
      0 < text.length → 0 ≤ ov → (text.length : Int) ≤ cs - ov →
      jsTrim text ≠ [] →
      chunkText text cs ov (fuel + 2) = some [jsTrim text]) := by
  constructor
  · intro fuel
    exact chunkTextLoop_a_stuck fuel []
  · intro text cs ov fuel h0 hov hle htrim
    have hlen0 : (0 : Int) < (text.length : Int) := by exact_mod_cast h0
    have hcs : (text.length : Int) ≤ cs := by omega
    have hnosnap : ¬ (cs < (text.length : Int)) := by omega
    have hpush : (jsTrim text).length > 0 := List.length_pos.mpr htrim
    unfold chunkText
    rw [chunkTextLoop, if_pos hlen0]
    simp only [zero_add, if_neg hnosnap, jsSlice_of_le text cs hcs, if_pos hpush]
    rw [chunkTextLoop]
    rw [if_neg (show ¬ (cs - ov < (text.length : Int)) by omega)]
    rfl

/-- C2 (counterexample): the claim also asserts that every non-empty text
shorter than `size` yields exactly one chunk; a 900-character text with
`size = 1000, overlap = 200` yields two chunks (lengths 900 and 100),
because the loop re-enters at `start = 800 < 900`. -/
theorem chunkText_short_text_two_chunks :
    (chunkText (List.replicate 900 'a') 1000 200 10).map
      (fun l => l.map List.length) = some [900, 100] := by
  unfold chunkText
  rw [chunkTextLoop_repl_step 900 9 0 [] (by norm_num) (by norm_num)]
  rw [show (0 : Int) + 800 = 800 by norm_num]
  rw [chunkTextLoop_repl_step 900 8 800 _ (by norm_num) (by norm_num)]
  rw [show (800 : Int) + 800 = 1600 by norm_num]
  rw [chunkTextLoop_repl_exit 900 7 1600 _ (by norm_num)]
  norm_num [List.length_replicate]
  omega

/-- C2 witness: the amended theorem applied at concrete inputs. -/
theorem chunkText_overlap_amended_witness :
    chunkText "hey".toList 10 2 7 = some [jsTrim "hey".toList] ∧
    chunkText ['a'] 10 10 3 = none :=
  ⟨chunkText_overlap_amended.2 "hey".toList 10 2 5 (by decide) (by decide)
      (by decide) (by decide),
    chunkText_overlap_amended.1 3⟩

/-- C9 (counterexample): a 2500-character text with `size = 1000,
overlap = 200` yields four chunks (lengths 1000, 1000, 900, 100), not the
three the spec scenario expects: after the third window the loop re-enters
at `start = 2400 < 2500`. -/
theorem chunkText_2500_chars_four_chunks :
    (chunkText (List.replicate 2500 'a') 1000 200 10).map
      (fun l => l.map List.length) = some [1000, 1000, 900, 100] := by
  unfold chunkText
  rw [chunkTextLoop_repl_step 2500 9 0 [] (by norm_num) (by norm_num)]
  rw [show (0 : Int) + 800 = 800 by norm_num]
  rw [chunkTextLoop_repl_step 2500 8 800 _ (by norm_num) (by norm_num)]
  rw [show (800 : Int) + 800 = 1600 by norm_num]
  rw [chunkTextLoop_repl_step 2500 7 1600 _ (by norm_num) (by norm_num)]
  rw [show (1600 : Int) + 800 = 2400 by norm_num]
  rw [chunkTextLoop_repl_step 2500 6 2400 _ (by norm_num) (by norm_num)]
  rw [show (2400 : Int) + 800 = 3200 by norm_num]
  rw [chunkTextLoop_repl_exit 2500 5 3200 _ (by norm_num)]
  norm_num [List.length_replicate]
  omega

/-- C9 (amended): the chunk-count for a 2500-character text is 4, not 3
(see the counterexample); the rest of the scenario holds: every chunk
`chunkText` ever returns is non-empty and carries no leading or trailing
whitespace. -/
theorem chunkText_chunks_trimmed (text : List Char) (cs ov : Int) (fuel : Nat)
    (l : List (List Char)) (h : chunkText text cs ov fuel = some l) :
    ∀ c ∈ l, c ≠ [] ∧ ((c.head?.all fun ch => !isJsSpace ch) = true) ∧
      ((c.getLast?.all fun ch => !isJsSpace ch) = true) :=
  chunkTextLoop_inv text cs ov fuel 0 [] l h (by intro c hc; cases hc)

/-- C8: fallback quiz generation returns exactly `numQuestions` questions
with ids 1..n in order; the first `⌈0.6 n⌉` are multiple-choice with four
options whose first option is the answer, the remainder short-answer; for
`numQuestions = 5` this is 3 MCQ and 2 short-answer questions. -/
theorem fallbackQuizGeneration_spec (topic : String) (n : Nat) (hn : 1 ≤ n) :
    (fallbackQuizGeneration topic n).length = n ∧
    (∀ i q, (fallbackQuizGeneration topic n)[i]? = some q →
      q.id = i + 1 ∧
      (i < (3 * n + 4) / 5 →
        q.type = QuestionType.mcq ∧
        ∃ opts, q.options = some opts ∧ opts.length = 4 ∧
          opts.head? = some q.answer) ∧
      ((3 * n + 4) / 5 ≤ i →
        q.type = QuestionType.short ∧ q.options = none)) ∧
    (fallbackQuizGeneration topic 5).countP
      (fun q => q.type == QuestionType.mcq) = 3 ∧
    (fallbackQuizGeneration topic 5).countP
      (fun q => q.type == QuestionType.short) = 2 := by
  have hm : (3 * n + 4) / 5 ≤ n := by
    rw [Nat.div_le_iff_le_mul_add_pred (by norm_num)]
    omega
  refine ⟨?_, ?_, ?_, ?_⟩
  · unfold fallbackQuizGeneration
    simp only [List.length_append, List.length_map, List.length_range]
    omega
  · intro i q hq
    unfold fallbackQuizGeneration at hq
    by_cases hi : i < (3 * n + 4) / 5
    · rw [List.getElem?_append] at hq
      simp only [List.length_map, List.length_range] at hq
      rw [if_pos hi, List.getElem?_map, List.getElem?_range hi] at hq
      simp only [Option.map_some'] at hq
      injection hq with hq
      subst hq
      exact ⟨rfl, fun _ => ⟨rfl, mcqPlaceholderOptions, rfl, rfl, rfl⟩,
        fun hge => absurd hi (by omega)⟩
    · push_neg at hi
      rw [List.getElem?_append_right
        (by simp only [List.length_map, List.length_range]; exact hi)] at hq
      simp only [List.length_map, List.length_range] at hq
      rw [List.getElem?_map] at hq
      by_cases hlt : i - (3 * n + 4) / 5 < n - (3 * n + 4) / 5
      · rw [List.getElem?_range hlt] at hq
        simp only [Option.map_some'] at hq
        injection hq with hq
        subst hq
        refine ⟨?_, fun h => absurd h (by omega), fun _ => ⟨rfl, rfl⟩⟩
        show (3 * n + 4) / 5 + (i - (3 * n + 4) / 5) + 1 = i + 1
        omega
      · rw [List.getElem?_eq_none
          (by simp only [List.length_range]; omega)] at hq
        simp at hq
  · simp [fallbackQuizGeneration, List.range_succ, List.countP_cons,
      List.countP_append]
  · simp [fallbackQuizGeneration, List.range_succ, List.countP_cons,
      List.countP_append]

/-- C8 witness: the theorem applied at `topic = "Arrays"`, `n = 5`. -/
theorem fallbackQuizGeneration_spec_witness :
    (fallbackQuizGeneration "Arrays" 5).length = 5 ∧
    (∀ i q, (fallbackQuizGeneration "Arrays" 5)[i]? = some q →
      q.id = i + 1 ∧
      (i < (3 * 5 + 4) / 5 →
        q.type = QuestionType.mcq ∧
        ∃ opts, q.options = some opts ∧ opts.length = 4 ∧
          opts.head? = some q.answer) ∧
      ((3 * 5 + 4) / 5 ≤ i →
        q.type = QuestionType.short ∧ q.options = none)) ∧
    (fallbackQuizGeneration "Arrays" 5).countP
      (fun q => q.type == QuestionType.mcq) = 3 ∧
    (fallbackQuizGeneration "Arrays" 5).countP
      (fun q => q.type == QuestionType.short) = 2 :=
  fallbackQuizGeneration_spec "Arrays" 5 (by norm_num)

/-- C9 witness: the amended theorem applied to a concrete run. -/
theorem chunkText_chunks_trimmed_witness :
    (['x'] : List Char) ≠ [] ∧
    (((['x'] : List Char).head?.all fun ch => !isJsSpace ch) = true) ∧
    (((['x'] : List Char).getLast?.all fun ch => !isJsSpace ch) = true) :=
  chunkText_chunks_trimmed ['x'] 5 1 5 [['x']] (by decide) ['x'] (by decide)

/-- C6: `cosineSimilarity` fails with the dimension-mismatch error exactly
when the lengths differ, and on equal lengths returns the dot product
divided by the product of the Euclidean norms (the accumulator loop of the
source refines the spec formula `dot(a,b) / (‖a‖·‖b‖)`). -/
theorem cosineSimilarity_spec (a b : List ℝ) :
    (a.length ≠ b.length →
      VectorStore.cosineSimilarity a b =
        Except.error "Vectors must have the same length") ∧
    (a.length = b.length →
      VectorStore.cosineSimilarity a b =
        Except.ok (listDot a b / (euclNorm a * euclNorm b))) := by
  constructor
  · intro h
    unfold VectorStore.cosineSimilarity
    rw [if_pos h]
  · intro h
    unfold VectorStore.cosineSimilarity
    rw [if_neg (by omega : ¬ a.length ≠ b.length)]
    unfold VectorStore.cosValue
    rw [cosAccum_foldl]
    simp only [zero_add]
    rw [sum_zip_sq_left a b h, sum_zip_sq_right a b h]
    rfl

/-- C6 witness: the theorem applied to a mismatched pair and to an
equal-length pair. -/
theorem cosineSimilarity_spec_witness :
    VectorStore.cosineSimilarity [(1 : ℝ)] [1, 2] =
      Except.error "Vectors must have the same length" ∧
    VectorStore.cosineSimilarity [(1 : ℝ), 0] [0, 1] =
      Except.ok (listDot [(1 : ℝ), 0] [0, 1] /
        (euclNorm [(1 : ℝ), 0] * euclNorm [0, 1])) :=
  ⟨(cosineSimilarity_spec [(1 : ℝ)] [1, 2]).1 (by norm_num),
   (cosineSimilarity_spec [(1 : ℝ), 0] [0, 1]).2 (by norm_num)⟩

/-- C4: with well-formed candidates (matching dimension, non-zero norms),
`findSimilar` succeeds and returns exactly `min topK #candidates` records,
sorted descending by similarity, ties kept in original insertion order
(stable-sort sublist property), each record a stored record with the
embedding stripped; an empty store yields the empty sequence. -/
theorem findSimilar_topK_spec (store : VectorStore) (q : List ℝ) (topK : Nat)
    (hlen : ∀ v ∈ store.vectors, v.embedding.length = q.length)
    (hnorm : ∀ v ∈ store.vectors, ((v.embedding.map fun x => x * x).sum) ≠ 0) :
    ∃ rs : List SimRecord,
      VectorStore.findSimilar store q topK none = Except.ok rs ∧
      rs.length = min topK store.vectors.length ∧
      (rs.map SimRecord.similarity).Sorted (fun x y => y ≤ x) ∧
      (∀ r ∈ rs, ∃ v ∈ store.vectors,
        r = VectorStore.stripRecord v (VectorStore.cosValue q v.embedding)) ∧
      (∀ p s : VectorRecord × ℝ, p.2 = s.2 →
        [p, s].Sublist
          (store.vectors.map fun v => (v, VectorStore.cosValue q v.embedding)) →
        [p, s].Sublist (VectorStore.sortBySimDesc
          (store.vectors.map fun v => (v, VectorStore.cosValue q v.embedding)))) ∧
      (store.vectors = [] → rs = []) := by
  have hok : VectorStore.simList q store.vectors =
      Except.ok (store.vectors.map fun v => (v, VectorStore.cosValue q v.embedding)) :=
    simList_ok_of_len q store.vectors hlen
  have hfind : VectorStore.findSimilar store q topK none =
      Except.ok (((VectorStore.sortBySimDesc
        (store.vectors.map fun v => (v, VectorStore.cosValue q v.embedding))).take
          topK).map fun p => VectorStore.stripRecord p.1 p.2) := by
    unfold VectorStore.findSimilar
    dsimp only
    rw [hok]
  refine ⟨_, hfind, ?_, ?_, ?_, ?_, ?_⟩
  · rw [List.length_map, List.length_take, VectorStore.sortBySimDesc,
      List.length_insertionSort, List.length_map]
  · letI : IsTotal (VectorRecord × ℝ) (fun x y => y.2 ≤ x.2) :=
      ⟨fun a b => le_total b.2 a.2⟩
    letI : IsTrans (VectorRecord × ℝ) (fun x y => y.2 ≤ x.2) :=
      ⟨fun a b c h1 h2 => le_trans h2 h1⟩
    have hsorted : List.Sorted (fun x y => y.2 ≤ x.2)
        (VectorStore.sortBySimDesc
          (store.vectors.map fun v => (v, VectorStore.cosValue q v.embedding))) :=
      List.sorted_insertionSort _ _
    have htake := List.Pairwise.sublist (List.take_sublist topK _) hsorted
    rw [List.map_map]
    exact List.pairwise_map.mpr htake
  · intro r hr
    rw [List.mem_map] at hr
    obtain ⟨p, hp, rfl⟩ := hr
    have hp2 := List.mem_of_mem_take hp
    rw [VectorStore.sortBySimDesc, List.mem_insertionSort, List.mem_map] at hp2
    obtain ⟨v, hv, hpv⟩ := hp2
    exact ⟨v, hv, by rw [← hpv]⟩
  · intro p s hps hsub
    exact List.pair_sublist_insertionSort (le_of_eq hps.symm) hsub
  · intro hempty
    rw [hempty]
    simp [VectorStore.sortBySimDesc]

/-- C4 witness: the theorem applied to a two-record store with embeddings
of matching dimension and non-zero norms. -/
theorem findSimilar_topK_spec_witness :
    ∃ rs : List SimRecord,
      VectorStore.findSimilar sampleStore [(1 : ℝ), 0] 1 none = Except.ok rs ∧
      rs.length = min 1 sampleStore.vectors.length ∧
      (rs.map SimRecord.similarity).Sorted (fun x y => y ≤ x) ∧
      (∀ r ∈ rs, ∃ v ∈ sampleStore.vectors,
        r = VectorStore.stripRecord v
          (VectorStore.cosValue [(1 : ℝ), 0] v.embedding)) ∧
      (∀ p s : VectorRecord × ℝ, p.2 = s.2 →
        [p, s].Sublist (sampleStore.vectors.map
          fun v => (v, VectorStore.cosValue [(1 : ℝ), 0] v.embedding)) →
        [p, s].Sublist (VectorStore.sortBySimDesc (sampleStore.vectors.map
          fun v => (v, VectorStore.cosValue [(1 : ℝ), 0] v.embedding)))) ∧
      (sampleStore.vectors = [] → rs = []) :=
  findSimilar_topK_spec sampleStore [(1 : ℝ), 0] 1
    (by
      intro v hv
      simp only [sampleStore, List.mem_cons, List.not_mem_nil, or_false] at hv
      rcases hv with rfl | rfl <;> decide)
    (by
      intro v hv
      simp only [sampleStore, List.mem_cons, List.not_mem_nil, or_false] at hv
      rcases hv with rfl | rfl <;> norm_num [vecRec1, vecRec2])

/-- C5 (amended): a dimension-mismatched record does not merely lose its own
similarity — the raised error aborts the whole `findSimilar` call, which
returns the `DimensionMismatch` error and no results from the remaining
well-formed records. -/
theorem findSimilar_mismatch_aborts (store : VectorStore) (q : List ℝ)
    (topK : Nat) (h : ∃ v ∈ store.vectors, v.embedding.length ≠ q.length) :
    VectorStore.findSimilar store q topK none =
      Except.error "Vectors must have the same length" := by
  unfold VectorStore.findSimilar
  dsimp only
  rw [simList_error_of_mismatch q store.vectors h]

/-- C5 (counterexample): in a store holding one well-formed record and one
record of the wrong dimension, `findSimilar` returns the error — it does not
skip the offending record and return results from the well-formed one. -/
theorem findSimilar_mismatch_not_skipped :
    VectorStore.findSimilar mismatchStore [(1 : ℝ), 0] 5 none =
      Except.error "Vectors must have the same length" := by
  have h1 : VectorStore.cosineSimilarity [(1 : ℝ), 0] vecRec1.embedding =
      Except.ok (VectorStore.cosValue [(1 : ℝ), 0] vecRec1.embedding) := by
    unfold VectorStore.cosineSimilarity
    rw [if_neg (by decide :
      ¬ ([(1 : ℝ), 0].length ≠ vecRec1.embedding.length))]
  have h2 : VectorStore.cosineSimilarity [(1 : ℝ), 0] vecRecBad.embedding =
      Except.error "Vectors must have the same length" := by
    unfold VectorStore.cosineSimilarity
    rw [if_pos (by decide :
      [(1 : ℝ), 0].length ≠ vecRecBad.embedding.length)]
  unfold VectorStore.findSimilar
  dsimp only
  rw [show mismatchStore.vectors = [vecRec1, vecRecBad] from rfl]
  rw [VectorStore.simList, h1, VectorStore.simList, h2, VectorStore.simList]

/-- C5 witness: the amended theorem applied to the mismatch store. -/
theorem findSimilar_mismatch_aborts_witness :
    VectorStore.findSimilar mismatchStore [(1 : ℝ), 0] 3 none =
      Except.error "Vectors must have the same length" :=
  findSimilar_mismatch_aborts mismatchStore [(1 : ℝ), 0] 3
    ⟨vecRecBad, List.mem_cons_of_mem _ (List.mem_cons_self _ _), by decide⟩

/-- C7: after `deleteDocument d` on a store in which `d` is registered,
`findSimilar` never returns a record of `d`, `getDocumentVectors d` is
empty, `totalDocuments` decrements by exactly one, and vectors and
document entries of every other document are unchanged. -/
theorem deleteDocument_spec (store : VectorStore) (d : String)
    (hmem : d ∈ store.documents.map Prod.fst)
    (hnodup : (store.documents.map Prod.fst).Nodup) :
    (∀ (q : List ℝ) (topK : Nat) (f : Option String) (rs : List SimRecord),
      VectorStore.findSimilar (VectorStore.deleteDocument store d) q topK f =
        Except.ok rs →
      ∀ r ∈ rs, r.documentId ≠ d) ∧
    VectorStore.getDocumentVectors (VectorStore.deleteDocument store d) d = [] ∧
    (VectorStore.getStats (VectorStore.deleteDocument store d)).totalDocuments
      + 1 = (VectorStore.getStats store).totalDocuments ∧
    (∀ d2, d2 ≠ d →
      VectorStore.getDocumentVectors (VectorStore.deleteDocument store d) d2 =
        VectorStore.getDocumentVectors store d2) ∧
    (∀ d2, d2 ≠ d →
      VectorStore.getDocument (VectorStore.deleteDocument store d) d2 =
        VectorStore.getDocument store d2) := by
  refine ⟨?_, ?_, ?_, ?_, ?_⟩
  · intro q topK f rs h r hr
    obtain ⟨v, hv, hid⟩ := findSimilar_result_docId _ q topK f rs h r hr
    have hv2 : (v.documentId != d) = true := (List.mem_filter.mp hv).2
    rw [hid]
    simpa using hv2
  · unfold VectorStore.getDocumentVectors VectorStore.deleteDocument
    dsimp only
    rw [List.filter_filter]
    refine List.filter_eq_nil_iff.mpr (fun v _ => ?_)
    by_cases hvd : v.documentId = d <;> simp [hvd]
  · unfold VectorStore.getStats VectorStore.deleteDocument
    dsimp only
    exact length_filter_keys_of_mem_nodup d store.documents hmem hnodup
  · intro d2 hd2
    unfold VectorStore.getDocumentVectors VectorStore.deleteDocument
    dsimp only
    rw [List.filter_filter]
    refine List.filter_congr (fun v _ => ?_)
    by_cases hvd : v.documentId = d2 <;> simp [hvd, hd2]
  · intro d2 hd2
    unfold VectorStore.getDocument VectorStore.deleteDocument
    dsimp only
    rw [find?_filter_keys_ne d d2 hd2 store.documents]

/-- C7 witness: deleting document "d1" from a two-document store. -/
theorem deleteDocument_spec_witness :
    (∀ (q : List ℝ) (topK : Nat) (f : Option String) (rs : List SimRecord),
      VectorStore.findSimilar (VectorStore.deleteDocument twoDocStore "d1")
        q topK f = Except.ok rs →
      ∀ r ∈ rs, r.documentId ≠ "d1") ∧
    VectorStore.getDocumentVectors
      (VectorStore.deleteDocument twoDocStore "d1") "d1" = [] ∧
    (VectorStore.getStats
      (VectorStore.deleteDocument twoDocStore "d1")).totalDocuments + 1 =
      (VectorStore.getStats twoDocStore).totalDocuments ∧
    (∀ d2, d2 ≠ "d1" →
      VectorStore.getDocumentVectors
        (VectorStore.deleteDocument twoDocStore "d1") d2 =
        VectorStore.getDocumentVectors twoDocStore d2) ∧
    (∀ d2, d2 ≠ "d1" →
      VectorStore.getDocument (VectorStore.deleteDocument twoDocStore "d1") d2 =
        VectorStore.getDocument twoDocStore d2) :=
  deleteDocument_spec twoDocStore "d1" (by decide) (by decide)

/-- C10: deleting a document id that owns no vectors and is absent from the
document map is a no-op, and deleting twice equals deleting once. -/
theorem deleteDocument_noop_idem (store : VectorStore) (d : String)
    (h1 : ∀ v ∈ store.vectors, v.documentId ≠ d)
    (h2 : ∀ e ∈ store.documents, e.1 ≠ d) :
    VectorStore.deleteDocument store d = store ∧
    VectorStore.deleteDocument (VectorStore.deleteDocument store d) d =
      VectorStore.deleteDocument store d := by
  have hv : store.vectors.filter (fun v => v.documentId != d) = store.vectors :=
    List.filter_eq_self.mpr (fun v hvm => by simpa using h1 v hvm)
  have hd : store.documents.filter (fun e => e.1 != d) = store.documents :=
    List.filter_eq_self.mpr (fun e hem => by simpa using h2 e hem)
  have heq : VectorStore.deleteDocument store d = store := by
    cases store with
    | mk vs ds =>
      unfold VectorStore.deleteDocument
      dsimp only
      rw [show (VectorStore.mk vs ds).vectors = vs from rfl] at hv
      rw [show (VectorStore.mk vs ds).documents = ds from rfl] at hd
      rw [hv, hd]
  exact ⟨heq, by rw [heq, heq]⟩

/-- C10 witness: deleting the absent id "zzz" from the sample store. -/
theorem deleteDocument_noop_idem_witness :
    VectorStore.deleteDocument sampleStore "zzz" = sampleStore ∧
    VectorStore.deleteDocument (VectorStore.deleteDocument sampleStore "zzz")
      "zzz" = VectorStore.deleteDocument sampleStore "zzz" :=
  deleteDocument_noop_idem sampleStore "zzz" (by decide) (by decide)

end AITutor
